import Mathlib

/- A shallow embedding of the @typed/navigation transition engine
   (src/shared.ts: setupFromModelAndIntent and helpers, src/Memory.ts:
   clampNavigationState) together with proofs about its behaviour.

   Effectful code is modelled by explicit state passing: UUID minting is a
   counter supply threaded through, the LazyRef state cell is a field of
   `PState` read/written through the clamping transform, and the externally
   observable effects (runs of the before-handler pipeline, adapter commits,
   runs of the after-handler pipeline, cell writes) are recorded in a trace. -/

namespace TypedNavigation

/-- A URL, reduced to the components the engine inspects:
`origin`, `pathname`, plus `search`/`hash` which only matter for equality. -/
structure Url where
  origin : String
  pathname : String
  search : String
  hash : String
deriving DecidableEq, Repr

/-- Opaque application state values. `patched` models the
`{__typed__navigation__id__, __typed__navigation__key__, __typed__navigation__state__}`
marker object persisted in host history state; `undef` models JS `undefined`. -/
inductive StateVal where
  | undef : StateVal
  | raw : Nat → StateVal
  | patched : Nat → Nat → StateVal → StateVal
deriving DecidableEq, Repr

/-- A materialized history entry (src/Destination.ts). UUIDs are modelled as
naturals minted from a counter supply. -/
structure Destination where
  id : Nat
  key : Nat
  url : Url
  state : StateVal
  sameDocument : Bool
deriving DecidableEq, Repr

/-- A destination without identity (src/ProposedDestination.ts). -/
structure ProposedDestination where
  url : Url
  state : StateVal
  sameDocument : Bool
deriving DecidableEq, Repr

/-- The `to` field of a TransitionEvent: `Union(ProposedDestination, Destination)`. -/
inductive ToDest where
  | proposed : ProposedDestination → ToDest
  | dest : Destination → ToDest
deriving DecidableEq, Repr

/-- `isDestination` from src/Navigation/shared.ts: tests for `id`/`key` fields. -/
def isDestination : ToDest → Bool
  | .dest _ => true
  | .proposed _ => false

/-- src/NavigationType.ts: the four transition kinds. -/
inductive NavigationType where
  | push : NavigationType
  | replace : NavigationType
  | reload : NavigationType
  | traverse : NavigationType
deriving DecidableEq, Repr

/-- src/Event.ts `TransitionEvent`. The source's `from` field is spelled
`from'` because `from` is a Lean keyword. `info` is opaque; JS `null`
is modelled as `none`. -/
structure TransitionEvent where
  type : NavigationType
  from' : Destination
  delta : Int
  to' : ToDest
  info : Option Nat
deriving DecidableEq, Repr

/-- src/Event.ts `NavigationEvent`, emitted to after-handlers post commit. -/
structure NavigationEvent where
  type : NavigationType
  destination : Destination
  info : Option Nat
deriving DecidableEq, Repr

/-- src/Navigation/shared.ts `NavigationState`. `index` is a JS number and can
in principle go negative, so it is an `Int`. -/
structure NavigationState where
  entries : List Destination
  index : Int
  transition : Option TransitionEvent
deriving DecidableEq, Repr

/-- JS `arr.slice(-m)`: the last `m` elements; `slice(-0)` is `slice(0)`,
the whole array. -/
def sliceLast (m : Nat) (xs : List Destination) : List Destination :=
  if m = 0 then xs else xs.drop (xs.length - m)

/-- src/Navigation/Memory.ts `clampNavigationState`: keep the last
`maxEntries` entries and clamp `index` into `[0, entries.length - 1]`,
preserving `transition`. -/
def clampNavigationState (maxEntries : Nat) (state : NavigationState) : NavigationState :=
  { entries := sliceLast maxEntries state.entries
    index := min (max 0 state.index) ((sliceLast maxEntries state.entries).length - 1 : Int)
    transition := state.transition }

/-- The two recoverable control-flow errors a before-handler may raise
(src/Error.ts `RedirectError` with its `path`/`options.state`/`options.info`
payload, and `CancelNavigation`). -/
inductive NavErr where
  | redirect : Url → StateVal → Option Nat → NavErr
  | cancel : NavErr
deriving DecidableEq, Repr

/-- Result of running one deferred effect returned by a before-handler. -/
inductive DeferOutcome where
  | fail : NavErr → DeferOutcome
  | ok : DeferOutcome
deriving DecidableEq, Repr

/-- Result of polling one before-handler: synchronous failure, abstention
(`Option.none`), or a deferred effect (`Option.some(match)`), whose own
eventual outcome is carried alongside. -/
inductive HandlerOutcome where
  | fail : NavErr → HandlerOutcome
  | abstain : HandlerOutcome
  | defer : DeferOutcome → HandlerOutcome
deriving DecidableEq, Repr

def HandlerOutcome.isFail : HandlerOutcome → Bool
  | .fail _ => true
  | _ => false

def DeferOutcome.isFail : DeferOutcome → Bool
  | .fail _ => true
  | _ => false

/-- The deferred effects collected by the polling loop, in the order the
handlers returned them. -/
def collectDefers (os : List HandlerOutcome) : List DeferOutcome :=
  os.filterMap fun o =>
    match o with
    | .defer d => some d
    | _ => none

/-- Observable result of `runBeforeHandlers`: which handler outcomes were
polled (in order), which deferred effects actually ran (in order), and the
final error, if any. -/
structure BeforeResult where
  polled : List HandlerOutcome
  deferredRun : List DeferOutcome
  result : Option NavErr
deriving DecidableEq, Repr

/-- The `for (const [handler, ctx] of handlers)` loop of `runBeforeHandlers`:
poll each handler in insertion order; a synchronous failure stops the loop
and discards collected deferred effects; otherwise `Some` matches are
enqueued. Returns (polled outcomes, collected deferreds, error). -/
def pollLoop : List HandlerOutcome → List HandlerOutcome × List DeferOutcome × Option NavErr
  | [] => ([], [], none)
  | o :: rest =>
    match o with
    | .fail e => ([.fail e], [], some e)
    | .abstain =>
      let r := pollLoop rest
      (.abstain :: r.1, r.2.1, r.2.2)
    | .defer d =>
      let r := pollLoop rest
      (.defer d :: r.1, d :: r.2.1, r.2.2)

/-- The `for (const match of matches)` loop of `runBeforeHandlers`: run the
collected deferred effects in order; the first failure stops the loop.
Returns (deferreds actually run, error). -/
def runDeferreds : List DeferOutcome → List DeferOutcome × Option NavErr
  | [] => ([], none)
  | d :: rest =>
    match d with
    | .fail e => ([.fail e], some e)
    | .ok =>
      let r := runDeferreds rest
      (.ok :: r.1, r.2)

/-- src/Navigation/shared.ts `runBeforeHandlers`: snapshot the registered
before-handlers, poll each on the event, then drain the deferred queue.
A handler is modelled as a function from the event to its outcome. -/
def runBeforeHandlers (handlers : List (TransitionEvent → HandlerOutcome))
    (event : TransitionEvent) : BeforeResult :=
  let p := pollLoop (handlers.map fun h => h event)
  match p.2.2 with
  | some e => ⟨p.1, [], some e⟩
  | none =>
    let r := runDeferreds p.2.1
    ⟨p.1, r.1, r.2⟩

/-- The engine's environment: the `maxEntries` bound and `origin` of the
memory adapter, and the registered before-handlers. -/
structure Env where
  maxEntries : Nat
  origin : String
  beforeHandlers : List (TransitionEvent → HandlerOutcome)

/-- Chronological record of the engine's observable effects. -/
structure Trace where
  beforeRuns : List TransitionEvent
  commits : List (Destination × TransitionEvent)
  afterRuns : List NavigationEvent
  sets : List NavigationState
deriving DecidableEq, Repr

def Trace.empty : Trace := ⟨[], [], [], []⟩

/-- Full pipeline state: the raw content of the LazyRef cell, the UUID
counter supply, and the effect trace. -/
structure PState where
  nav : NavigationState
  ctr : Nat
  trace : Trace
deriving Repr

/-- Reading the state cell goes through the `clampNavigationState` transform
(`LazyRef.transform(ref, clamp, clamp)`). -/
def cellGet (env : Env) (s : PState) : NavigationState :=
  clampNavigationState env.maxEntries s.nav

/-- Writing the state cell stores the clamped value and returns the new
observable value; the write is recorded in the trace. -/
def cellSet (env : Env) (a : NavigationState) (s : PState) : NavigationState × PState :=
  let stored := clampNavigationState env.maxEntries a
  (stored,
   { s with
     nav := stored
     trace := { s.trace with sets := s.trace.sets ++ [stored] } })

/-- `makeUuid`: mint a fresh identifier from the counter supply. -/
def makeUuid (c : Nat) : Nat × Nat := (c, c + 1)

/-- src/Navigation/shared.ts `isPatchedState`. -/
def isPatchedState : StateVal → Bool
  | .patched _ _ _ => true
  | _ => false

/-- src/Navigation/shared.ts `getOriginalState`: unwrap a patched marker. -/
def getOriginalState : StateVal → StateVal
  | .patched _ _ st => st
  | st => st

/-- src/Navigation/shared.ts `makeDestination`: adopt a patched marker's
identifiers if present, otherwise mint fresh `id` and `key`. -/
def makeDestination (url : Url) (state : StateVal) (origin : String) (c : Nat) :
    Destination × Nat :=
  match state with
  | .patched i k st => (⟨i, k, url, st, url.origin == origin⟩, c)
  | st =>
    let idc := makeUuid c
    let keyc := makeUuid idc.2
    (⟨idc.1, keyc.1, url, st, url.origin == origin⟩, keyc.2)

/-- The default Destination standing in for JS `undefined` when the source
indexes `entries[index]` out of range (never exercised on reachable states). -/
def undefDestination : Destination := ⟨0, 0, ⟨"", "", "", ""⟩, .undef, false⟩

/-- JS `state.entries[state.index]`: the current entry, `undefined` when the
index is out of range. -/
def getEntry (s : NavigationState) : Destination :=
  if 0 ≤ s.index ∧ s.index < (s.entries.length : Int) then
    s.entries.getD s.index.toNat undefDestination
  else undefDestination

/-- src/Navigation/shared.ts `makeOrUpdateDestination`: reuse the current
entry's `key` (minting only a fresh `id`) when the candidate URL shares
origin and pathname with the current entry, else delegate to
`makeDestination`. -/
def makeOrUpdateDestination (navigationState : NavigationState) (url : Url)
    (state : StateVal) (origin : String) (c : Nat) : Destination × Nat :=
  let current := getEntry navigationState
  let isSameOriginAndPath :=
    url.origin == current.url.origin && url.pathname == current.url.pathname
  if isSameOriginAndPath then
    let idc := makeUuid c
    (⟨idc.1, current.key, url, getOriginalState state, url.origin == origin⟩, idc.2)
  else
    makeDestination url state origin c

/-- src/Navigation/shared.ts `upgradeProposedDestination`: mint fresh `id`
and `key`, preserving `url`, `state`, `sameDocument`. -/
def upgradeProposedDestination (proposed : ProposedDestination) (c : Nat) :
    Destination × Nat :=
  let idc := makeUuid c
  let keyc := makeUuid idc.2
  (⟨idc.1, keyc.1, proposed.url, proposed.state, proposed.sameDocument⟩, keyc.2)

/-- `isDestination(beforeEvent.to) ? beforeEvent.to' : upgradeProposedDestination(...)`
inside `runNavigationEvent`. -/
def resolveTo (to' : ToDest) (c : Nat) : Destination × Nat :=
  match to' with
  | .dest d => (d, c)
  | .proposed p => upgradeProposedDestination p c

/-- src/Navigation/shared.ts `makeRedirectEvent`: a `replace` event from the
current entry to `makeDestination(url, options.state, origin)`, with
`delta = 0` and the redirect's `info`. -/
def makeRedirectEvent (origin : String) (path : Url) (state : StateVal)
    (info : Option Nat) (from' : Destination) (c : Nat) : TransitionEvent × Nat :=
  let toc := makeDestination path state origin c
  (⟨.replace, from', 0, .dest toc.1, info⟩, toc.2)

/-- Record one entry of `runBeforeHandlers` in the trace. -/
def recordBeforeRun (ev : TransitionEvent) (s : PState) : PState :=
  { s with trace := { s.trace with beforeRuns := s.trace.beforeRuns ++ [ev] } }

/-- Record one adapter `commit(to, event)` in the trace (the memory adapter's
commit is a no-op returning success). -/
def recordCommit (to' : Destination) (ev : TransitionEvent) (s : PState) : PState :=
  { s with trace := { s.trace with commits := s.trace.commits ++ [(to', ev)] } }

/-- Record one entry of `runHandlers` (the after-handler fan-out) in the
trace. -/
def recordAfterRun (ev : NavigationEvent) (s : PState) : PState :=
  { s with trace := { s.trace with afterRuns := s.trace.afterRuns ++ [ev] } }

/-- Outcome of one engine operation: a destination on success, or a fatal
defect (`Effect.dieMessage`). -/
inductive POutcome where
  | ok : Destination → POutcome
  | fatal : String → POutcome
deriving DecidableEq, Repr

def POutcome.isOk : POutcome → Bool
  | .ok _ => true
  | .fatal _ => false

/-- The tail of `runNavigationEvent` after the Before phase succeeded (or was
skipped): resolve `to`, commit unless `skipCommit`, apply the Mutate phase per
event type (clearing the transition in the same set), then run the
after-handlers and return `to`. `current` is the value returned by the set
that published the in-flight transition. -/
def commitMutateAfter (env : Env) (beforeEvent : TransitionEvent)
    (skipCommit : Bool) (current : NavigationState) (s2 : PState) :
    POutcome × PState :=
  let toc := resolveTo beforeEvent.to' s2.ctr
  let to' := toc.1
  let s3 : PState := { s2 with ctr := toc.2 }
  let s4 := if skipCommit then s3 else recordCommit to' beforeEvent s3
  let event : NavigationEvent := ⟨beforeEvent.type, to', beforeEvent.info⟩
  let s5 :=
    match beforeEvent.type with
    | .push =>
      let index := current.index + 1
      let entries := current.entries.take index.toNat ++ [to']
      (cellSet env ⟨entries, index, none⟩ s4).2
    | .replace =>
      let index := current.index
      let before := current.entries.take index.toNat
      let after := current.entries.drop (index.toNat + 1)
      let entries := before ++ [to'] ++ after
      (cellSet env ⟨entries, index, none⟩ s4).2
    | .reload =>
      (cellSet env { current with transition := none } s4).2
    | .traverse =>
      let nextIndex := current.index + beforeEvent.delta
      (cellSet env { current with index := nextIndex, transition := none } s4).2
  let s6 := recordAfterRun event s5
  (.ok to', s6)

mutual

/-- src/Navigation/shared.ts `runNavigationEvent`: set the in-flight
transition, run the before-handlers (unless `skipCommit`) branching to
`handleError` on failure, then `commitMutateAfter`. -/
def runNavigationEvent (env : Env) (beforeEvent : TransitionEvent) (depth : Nat)
    (skipCommit : Bool) (s : PState) : POutcome × PState :=
  let g := cellGet env s
  let cs := cellSet env { g with transition := some beforeEvent } s
  if skipCommit then commitMutateAfter env beforeEvent skipCommit cs.1 cs.2
  else
    match (runBeforeHandlers env.beforeHandlers beforeEvent).result with
    | some e => handleError env e depth (recordBeforeRun beforeEvent cs.2)
    | none => commitMutateAfter env beforeEvent skipCommit cs.1 (recordBeforeRun beforeEvent cs.2)
termination_by 2 * (25 - depth) + 1

/-- src/Navigation/shared.ts `handleError`: at depth ≥ 25 die with
"Redirect loop detected."; on CancelNavigation clear the transition and
return the current entry; on Redirect build the redirect event and re-enter
the pipeline at depth + 1. -/
def handleError (env : Env) (error : NavErr) (depth : Nat) (s : PState) :
    POutcome × PState :=
  if h : depth ≥ 25 then (.fatal "Redirect loop detected.", s)
  else
    let g := cellGet env s
    let from' := getEntry g
    match error with
    | .cancel =>
      (.ok from', (cellSet env ⟨g.entries, g.index, none⟩ s).2)
    | .redirect path st info =>
      let evc := makeRedirectEvent env.origin path st info from' s.ctr
      runNavigationEvent env evc.1 (depth + 1) false { s with ctr := evc.2 }
termination_by 2 * (25 - depth)

end

/-- The history option of `NavigateOptions` (`'push' | 'replace' | 'auto'`). -/
inductive HistoryOption where
  | push : HistoryOption
  | replace : HistoryOption
  | auto : HistoryOption
deriving DecidableEq, Repr

/-- src/NavigateOptions.ts: all fields optional; absent `history` defaults to
`auto`, absent `state` is JS `undefined`. -/
structure NavigateOptions where
  history : Option HistoryOption
  state : StateVal
  info : Option Nat
deriving Repr

/-- The event-assembly prefix of `navigate`: compute `to` via
`makeOrUpdateDestination`, resolve `auto` to `replace`/`push` by comparing
keys, and build the TransitionEvent with `delta = type === 'replace' ? 0 : 1`. -/
def makeNavigateEvent (env : Env) (url : Url) (options : NavigateOptions)
    (s : PState) : TransitionEvent × PState :=
  let state := cellGet env s
  let from' := getEntry state
  let history := options.history.getD .auto
  let toc := makeOrUpdateDestination state url options.state env.origin s.ctr
  let to' := toc.1
  let type : NavigationType :=
    match history with
    | .auto => if from'.key == to'.key then .replace else .push
    | .push => .push
    | .replace => .replace
  (⟨type, from', if type = .replace then 0 else 1, .dest to', options.info⟩,
   { s with ctr := toc.2 })

/-- src/Navigation/shared.ts `navigate`. -/
def navigate (env : Env) (url : Url) (options : NavigateOptions)
    (skipCommit : Bool) (s : PState) : POutcome × PState :=
  let evs := makeNavigateEvent env url options s
  runNavigationEvent env evs.1 0 skipCommit evs.2

/-- src/Navigation/shared.ts `traverseTo`: find the entry with the matching
key (returning the current entry unchanged when there is none), mint a fresh
`id` for it, and run a `traverse` event with `delta = nextIndex - index`. -/
def traverseTo (env : Env) (key : Nat) (info : Option Nat) (skipCommit : Bool)
    (s : PState) : POutcome × PState :=
  let state := cellGet env s
  let from' := getEntry state
  match state.entries.findIdx? (fun e => e.key == key) with
  | none => (.ok from', s)
  | some nextIndex =>
    let idc := makeUuid s.ctr
    let to' := { state.entries.getD nextIndex undefDestination with id := idc.1 }
    let delta : Int := (nextIndex : Int) - state.index
    let event : TransitionEvent := ⟨.traverse, from', delta, .dest to', info⟩
    runNavigationEvent env event 0 skipCommit { s with ctr := idc.2 }

/-- src/Navigation/shared.ts `back`: no-op at index 0, else traverse to the
key of the previous entry. -/
def back (env : Env) (info : Option Nat) (skipCommit : Bool) (s : PState) :
    POutcome × PState :=
  let st := cellGet env s
  if st.index = 0 then (.ok (st.entries.getD st.index.toNat undefDestination), s)
  else
    let key := (st.entries.getD (st.index - 1).toNat undefDestination).key
    traverseTo env key info skipCommit s

/-- src/Navigation/shared.ts `forward`: no-op at the last index, else
traverse to the key of the next entry. -/
def forward (env : Env) (info : Option Nat) (skipCommit : Bool) (s : PState) :
    POutcome × PState :=
  let st := cellGet env s
  if st.index = (st.entries.length : Int) - 1 then
    (.ok (st.entries.getD st.index.toNat undefDestination), s)
  else
    let key := (st.entries.getD (st.index + 1).toNat undefDestination).key
    traverseTo env key info skipCommit s

/-- The TransitionEvent assembled by `reload`: `from = to = current`,
`delta = 0`. -/
def reloadEvent (env : Env) (info : Option Nat) (s : PState) : TransitionEvent :=
  let st := cellGet env s
  let current := getEntry st
  ⟨.reload, current, 0, .dest current, info⟩

/-- src/Navigation/shared.ts `reload`. -/
def reload (env : Env) (info : Option Nat) (skipCommit : Bool) (s : PState) :
    POutcome × PState :=
  runNavigationEvent env (reloadEvent env info s) 0 skipCommit s

/-- The TransitionEvent assembled by `updateCurrentEntry`: a `replace` from
the current entry to the current entry with the new state, `delta = 0`,
`info = null`. -/
def updateCurrentEntryEvent (env : Env) (state : StateVal) (s : PState) :
    TransitionEvent :=
  let st := cellGet env s
  let current := getEntry st
  ⟨.replace, current, 0, .dest { current with state := state }, none⟩

/-- src/Navigation/shared.ts `updateCurrentEntry`. -/
def updateCurrentEntry (env : Env) (state : StateVal) (s : PState) :
    POutcome × PState :=
  runNavigationEvent env (updateCurrentEntryEvent env state s) 0 false s

/-- States of the engine reachable from an initial memory configuration
(src/Navigation/Memory.ts `setupMemory`: initial index is
`currentIndex ?? entries.length - 1`, initial transition `None`) by any
sequence of the public operations. -/
inductive Reachable (env : Env) : PState → Prop where
  | init (entries : List Destination) (currentIndex : Option Int) (ctr : Nat)
      (hne : entries ≠ []) :
      Reachable env
        ⟨⟨entries, currentIndex.getD ((entries.length : Int) - 1), none⟩, ctr, Trace.empty⟩
  | navigateStep {s : PState} (url : Url) (options : NavigateOptions) (skipCommit : Bool) :
      Reachable env s → Reachable env (navigate env url options skipCommit s).2
  | backStep {s : PState} (info : Option Nat) (skipCommit : Bool) :
      Reachable env s → Reachable env (back env info skipCommit s).2
  | forwardStep {s : PState} (info : Option Nat) (skipCommit : Bool) :
      Reachable env s → Reachable env (forward env info skipCommit s).2
  | traverseToStep {s : PState} (key : Nat) (info : Option Nat) (skipCommit : Bool) :
      Reachable env s → Reachable env (traverseTo env key info skipCommit s).2
  | reloadStep {s : PState} (info : Option Nat) (skipCommit : Bool) :
      Reachable env s → Reachable env (reload env info skipCommit s).2
  | updateCurrentEntryStep {s : PState} (state : StateVal) :
      Reachable env s → Reachable env (updateCurrentEntry env state s).2

/- ### Basic lemmas about the clamping transform -/

theorem sliceLast_eq_self {m : Nat} {xs : List Destination} (h : xs.length ≤ m) :
    sliceLast m xs = xs := by
  unfold sliceLast
  split
  · rfl
  · rw [Nat.sub_eq_zero_of_le h, List.drop_zero]

theorem sliceLast_length_le {m : Nat} (hm : m ≠ 0) (xs : List Destination) :
    (sliceLast m xs).length ≤ m := by
  unfold sliceLast
  rw [if_neg hm, List.length_drop]
  omega

theorem sliceLast_ne_nil {xs : List Destination} (h : xs ≠ []) (m : Nat) :
    sliceLast m xs ≠ [] := by
  have hx : 0 < xs.length := List.length_pos.mpr h
  unfold sliceLast
  split
  · exact h
  · rw [← List.length_pos, List.length_drop]
    omega

theorem sliceLast_idem (m : Nat) (xs : List Destination) :
    sliceLast m (sliceLast m xs) = sliceLast m xs := by
  by_cases hm : m = 0
  · subst hm; unfold sliceLast; simp
  · exact sliceLast_eq_self (sliceLast_length_le hm xs)

theorem clamp_transition (m : Nat) (st : NavigationState) :
    (clampNavigationState m st).transition = st.transition := rfl

theorem clamp_withTransition (m : Nat) (st : NavigationState)
    (t : Option TransitionEvent) :
    clampNavigationState m { st with transition := t } =
      { clampNavigationState m st with transition := t } := rfl

theorem clamp_idem (m : Nat) (st : NavigationState) :
    clampNavigationState m (clampNavigationState m st) = clampNavigationState m st := by
  simp only [clampNavigationState, sliceLast_idem, NavigationState.mk.injEq,
    true_and, and_true]
  omega

theorem clamp_eq_self {m : Nat} {st : NavigationState}
    (h1 : st.entries.length ≤ m) (h2 : 0 ≤ st.index)
    (h3 : st.index < (st.entries.length : Int)) :
    clampNavigationState m st = st := by
  obtain ⟨es, i, t⟩ := st
  simp only [clampNavigationState, NavigationState.mk.injEq]
  simp only at h1 h2 h3
  rw [sliceLast_eq_self h1]
  simp only [true_and, and_true]
  omega

theorem clamp_bounds {m : Nat} {st : NavigationState} (hm : 1 ≤ m)
    (hne : st.entries ≠ []) :
    0 ≤ (clampNavigationState m st).index ∧
    (clampNavigationState m st).index < ((clampNavigationState m st).entries.length : Int) ∧
    (clampNavigationState m st).entries.length ≤ m := by
  have h1 : sliceLast m st.entries ≠ [] := sliceLast_ne_nil hne m
  have h2 : 0 < (sliceLast m st.entries).length := List.length_pos.mpr h1
  have h3 : (sliceLast m st.entries).length ≤ m := sliceLast_length_le (by omega) st.entries
  simp only [clampNavigationState]
  refine ⟨?_, ?_, h3⟩ <;> omega

/-- The state stored by any `cellSet` is a clamped value, so reading it back
returns it unchanged. -/
theorem cellGet_cellSet (env : Env) (a : NavigationState) (s : PState) :
    cellGet env (cellSet env a s).2 = clampNavigationState env.maxEntries a := by
  simp only [cellGet, cellSet, clamp_idem]

theorem cellSet_fst (env : Env) (a : NavigationState) (s : PState) :
    (cellSet env a s).1 = clampNavigationState env.maxEntries a := rfl

theorem cellSet_ctr (env : Env) (a : NavigationState) (s : PState) :
    (cellSet env a s).2.ctr = s.ctr := rfl

/- ### Lemmas about the before-handler loops -/

theorem pollLoop_no_fail {os : List HandlerOutcome}
    (h : ∀ o ∈ os, o.isFail = false) :
    pollLoop os = (os, collectDefers os, none) := by
  induction os with
  | nil => rfl
  | cons o rest ih =>
    have ho := h o (List.mem_cons_self o rest)
    have hrest : ∀ o ∈ rest, o.isFail = false := fun o hm => h o (List.mem_cons_of_mem _ hm)
    cases o with
    | fail e => simp [HandlerOutcome.isFail] at ho
    | abstain => simp [pollLoop, ih hrest, collectDefers]
    | defer d => simp [pollLoop, ih hrest, collectDefers]

theorem pollLoop_first_fail {pre rest : List HandlerOutcome} {e : NavErr}
    (h : ∀ o ∈ pre, o.isFail = false) :
    pollLoop (pre ++ .fail e :: rest) = (pre ++ [.fail e], collectDefers pre, some e) := by
  induction pre with
  | nil => simp [pollLoop, collectDefers]
  | cons o pre' ih =>
    have ho := h o (List.mem_cons_self o pre')
    have hpre : ∀ o ∈ pre', o.isFail = false := fun o hm => h o (List.mem_cons_of_mem _ hm)
    cases o with
    | fail e' => simp [HandlerOutcome.isFail] at ho
    | abstain => simp [pollLoop, ih hpre, collectDefers]
    | defer d => simp [pollLoop, ih hpre, collectDefers]

theorem runDeferreds_no_fail {ds : List DeferOutcome}
    (h : ∀ d ∈ ds, d.isFail = false) :
    runDeferreds ds = (ds, none) := by
  induction ds with
  | nil => rfl
  | cons d rest ih =>
    have hd := h d (List.mem_cons_self d rest)
    have hrest : ∀ d ∈ rest, d.isFail = false := fun d hm => h d (List.mem_cons_of_mem _ hm)
    cases d with
    | fail e => simp [DeferOutcome.isFail] at hd
    | ok => simp [runDeferreds, ih hrest]

theorem runDeferreds_first_fail {pre rest : List DeferOutcome} {e : NavErr}
    (h : ∀ d ∈ pre, d.isFail = false) :
    runDeferreds (pre ++ .fail e :: rest) = (pre ++ [.fail e], some e) := by
  induction pre with
  | nil => simp [runDeferreds]
  | cons d pre' ih =>
    have hd := h d (List.mem_cons_self d pre')
    have hpre : ∀ d ∈ pre', d.isFail = false := fun d hm => h d (List.mem_cons_of_mem _ hm)
    cases d with
    | fail e' => simp [DeferOutcome.isFail] at hd
    | ok => simp [runDeferreds, ih hpre]

/- ### Characterization of the Commit/Mutate/After tail and step lemmas -/

/-- The Mutate-phase table of the design (§4.4.5): new entries and index per
event type, with the transition cleared in the same value. -/
def mutateTable (current : NavigationState) (ev : TransitionEvent)
    (to' : Destination) : NavigationState :=
  match ev.type with
  | .push =>
    ⟨current.entries.take (current.index + 1).toNat ++ [to'], current.index + 1, none⟩
  | .replace =>
    ⟨current.entries.take current.index.toNat ++ [to'] ++
       current.entries.drop (current.index.toNat + 1), current.index, none⟩
  | .reload => { current with transition := none }
  | .traverse => { current with index := current.index + ev.delta, transition := none }

theorem commitMutateAfter_spec (env : Env) (ev : TransitionEvent) (sk : Bool)
    (cur : NavigationState) (s2 : PState) :
    commitMutateAfter env ev sk cur s2 =
      (.ok (resolveTo ev.to' s2.ctr).1,
       { nav := clampNavigationState env.maxEntries
                  (mutateTable cur ev (resolveTo ev.to' s2.ctr).1)
         ctr := (resolveTo ev.to' s2.ctr).2
         trace := { beforeRuns := s2.trace.beforeRuns
                    commits := s2.trace.commits ++
                      (if sk then [] else [((resolveTo ev.to' s2.ctr).1, ev)])
                    afterRuns := s2.trace.afterRuns ++
                      [⟨ev.type, (resolveTo ev.to' s2.ctr).1, ev.info⟩]
                    sets := s2.trace.sets ++
                      [clampNavigationState env.maxEntries
                        (mutateTable cur ev (resolveTo ev.to' s2.ctr).1)] } }) := by
  obtain ⟨ty, f, dl, t, i⟩ := ev
  cases ty <;> cases sk <;>
    simp [commitMutateAfter, mutateTable, cellSet, recordCommit, recordAfterRun]

theorem runNavigationEvent_skip (env : Env) (ev : TransitionEvent) (depth : Nat)
    (s : PState) :
    runNavigationEvent env ev depth true s =
      commitMutateAfter env ev true
        (cellSet env { cellGet env s with transition := some ev } s).1
        (cellSet env { cellGet env s with transition := some ev } s).2 := by
  rw [runNavigationEvent]
  simp

theorem runNavigationEvent_err (env : Env) (ev : TransitionEvent) (depth : Nat)
    (s : PState) (e : NavErr)
    (h : (runBeforeHandlers env.beforeHandlers ev).result = some e) :
    runNavigationEvent env ev depth false s =
      handleError env e depth
        (recordBeforeRun ev (cellSet env { cellGet env s with transition := some ev } s).2) := by
  rw [runNavigationEvent]
  simp [h]

theorem runNavigationEvent_ok (env : Env) (ev : TransitionEvent) (depth : Nat)
    (s : PState)
    (h : (runBeforeHandlers env.beforeHandlers ev).result = none) :
    runNavigationEvent env ev depth false s =
      commitMutateAfter env ev false
        (cellSet env { cellGet env s with transition := some ev } s).1
        (recordBeforeRun ev (cellSet env { cellGet env s with transition := some ev } s).2) := by
  rw [runNavigationEvent]
  simp [h]

theorem handleError_depth (env : Env) (e : NavErr) (depth : Nat) (s : PState)
    (h : 25 ≤ depth) :
    handleError env e depth s = (.fatal "Redirect loop detected.", s) := by
  rw [handleError]
  rw [dif_pos h]

theorem handleError_cancel (env : Env) (depth : Nat) (s : PState)
    (h : depth < 25) :
    handleError env .cancel depth s =
      (.ok (getEntry (cellGet env s)),
       (cellSet env ⟨(cellGet env s).entries, (cellGet env s).index, none⟩ s).2) := by
  rw [handleError]
  rw [dif_neg (by omega)]

theorem handleError_redirect (env : Env) (path : Url) (st : StateVal)
    (info : Option Nat) (depth : Nat) (s : PState) (h : depth < 25) :
    handleError env (.redirect path st info) depth s =
      runNavigationEvent env
        (makeRedirectEvent env.origin path st info (getEntry (cellGet env s)) s.ctr).1
        (depth + 1) false
        { s with ctr := (makeRedirectEvent env.origin path st info
                          (getEntry (cellGet env s)) s.ctr).2 } := by
  rw [handleError]
  rw [dif_neg (by omega)]

@[simp]
theorem recordBeforeRun_nav (ev : TransitionEvent) (s : PState) :
    (recordBeforeRun ev s).nav = s.nav := rfl

@[simp]
theorem recordBeforeRun_ctr (ev : TransitionEvent) (s : PState) :
    (recordBeforeRun ev s).ctr = s.ctr := rfl

@[simp]
theorem cellGet_recordBeforeRun (env : Env) (ev : TransitionEvent) (s : PState) :
    cellGet env (recordBeforeRun ev s) = cellGet env s := rfl

/- ### Entries stay nonempty along the pipeline -/

theorem clamp_entries (m : Nat) (st : NavigationState) :
    (clampNavigationState m st).entries = sliceLast m st.entries := rfl

theorem mutateTable_ne {cur : NavigationState} (h : cur.entries ≠ [])
    (ev : TransitionEvent) (to' : Destination) :
    (mutateTable cur ev to').entries ≠ [] := by
  unfold mutateTable
  cases ev.type <;> simp_all

theorem commitMutateAfter_ne {cur : NavigationState} (h : cur.entries ≠ [])
    (env : Env) (ev : TransitionEvent) (sk : Bool) (s2 : PState) :
    ((commitMutateAfter env ev sk cur s2).2).nav.entries ≠ [] := by
  rw [commitMutateAfter_spec]
  exact sliceLast_ne_nil (mutateTable_ne h ev _) _

theorem runNav_ne_step (env : Env) (depth : Nat)
    (H : ∀ e s, s.nav.entries ≠ [] →
      ((handleError env e depth s).2).nav.entries ≠ []) :
    ∀ ev sk s, s.nav.entries ≠ [] →
      ((runNavigationEvent env ev depth sk s).2).nav.entries ≠ [] := by
  intro ev sk s hne
  have hg : (cellGet env s).entries ≠ [] := sliceLast_ne_nil hne _
  have hcur : ((cellSet env { cellGet env s with transition := some ev } s).1).entries ≠ [] := by
    rw [cellSet_fst, clamp_entries]
    exact sliceLast_ne_nil hg _
  have hs1 : ((cellSet env { cellGet env s with transition := some ev } s).2).nav.entries ≠ [] := by
    show (clampNavigationState env.maxEntries _).entries ≠ []
    rw [clamp_entries]
    exact sliceLast_ne_nil hg _
  cases sk with
  | true =>
    rw [runNavigationEvent_skip]
    exact commitMutateAfter_ne hcur env ev true _
  | false =>
    cases h : (runBeforeHandlers env.beforeHandlers ev).result with
    | some e =>
      rw [runNavigationEvent_err env ev depth s e h]
      exact H e _ (by simpa using hs1)
    | none =>
      rw [runNavigationEvent_ok env ev depth s h]
      exact commitMutateAfter_ne hcur env ev false _

theorem handle_ne_step (env : Env) (depth : Nat)
    (R : ∀ ev sk s, s.nav.entries ≠ [] →
      ((runNavigationEvent env ev (depth + 1) sk s).2).nav.entries ≠ []) :
    ∀ e s, s.nav.entries ≠ [] →
      ((handleError env e depth s).2).nav.entries ≠ [] := by
  intro e s hne
  by_cases hd : 25 ≤ depth
  · rw [handleError_depth env e depth s hd]
    exact hne
  · have hg : (cellGet env s).entries ≠ [] := sliceLast_ne_nil hne _
    cases e with
    | cancel =>
      rw [handleError_cancel env depth s (by omega)]
      show (clampNavigationState env.maxEntries _).entries ≠ []
      rw [clamp_entries]
      exact sliceLast_ne_nil hg _
    | redirect p st i =>
      rw [handleError_redirect env p st i depth s (by omega)]
      exact R _ false _ hne

theorem handleError_ne (env : Env) :
    ∀ n depth, 25 ≤ depth + n → ∀ e s, s.nav.entries ≠ [] →
      ((handleError env e depth s).2).nav.entries ≠ [] := by
  intro n
  induction n with
  | zero =>
    intro depth hd e s hne
    rw [handleError_depth env e depth s (by omega)]
    exact hne
  | succ n ih =>
    intro depth hd
    exact handle_ne_step env depth
      (runNav_ne_step env (depth + 1) (ih (depth + 1) (by omega)))

theorem runNavigationEvent_ne (env : Env) (ev : TransitionEvent) (depth : Nat)
    (sk : Bool) (s : PState) (hne : s.nav.entries ≠ []) :
    ((runNavigationEvent env ev depth sk s).2).nav.entries ≠ [] :=
  runNav_ne_step env depth
    (fun e s => handleError_ne env 25 depth (by omega) e s) ev sk s hne

theorem navigate_ne (env : Env) (url : Url) (options : NavigateOptions)
    (sk : Bool) (s : PState) (hne : s.nav.entries ≠ []) :
    ((navigate env url options sk s).2).nav.entries ≠ [] := by
  unfold navigate makeNavigateEvent
  exact runNavigationEvent_ne env _ 0 sk _ hne

theorem traverseTo_ne (env : Env) (key : Nat) (info : Option Nat) (sk : Bool)
    (s : PState) (hne : s.nav.entries ≠ []) :
    ((traverseTo env key info sk s).2).nav.entries ≠ [] := by
  unfold traverseTo
  cases h : (cellGet env s).entries.findIdx? (fun e => e.key == key) with
  | none => simpa [h] using hne
  | some nextIndex =>
    simp only [h]
    exact runNavigationEvent_ne env _ 0 sk _ hne

theorem back_ne (env : Env) (info : Option Nat) (sk : Bool) (s : PState)
    (hne : s.nav.entries ≠ []) :
    ((back env info sk s).2).nav.entries ≠ [] := by
  unfold back
  by_cases h : (cellGet env s).index = 0
  · simpa [h] using hne
  · simpa [h] using traverseTo_ne env _ info sk s hne

theorem forward_ne (env : Env) (info : Option Nat) (sk : Bool) (s : PState)
    (hne : s.nav.entries ≠ []) :
    ((forward env info sk s).2).nav.entries ≠ [] := by
  unfold forward
  by_cases h : (cellGet env s).index = ((cellGet env s).entries.length : Int) - 1
  · simpa [h] using hne
  · simpa [h] using traverseTo_ne env _ info sk s hne

theorem reload_ne (env : Env) (info : Option Nat) (sk : Bool) (s : PState)
    (hne : s.nav.entries ≠ []) :
    ((reload env info sk s).2).nav.entries ≠ [] :=
  runNavigationEvent_ne env _ 0 sk s hne

theorem updateCurrentEntry_ne (env : Env) (st : StateVal) (s : PState)
    (hne : s.nav.entries ≠ []) :
    ((updateCurrentEntry env st s).2).nav.entries ≠ [] :=
  runNavigationEvent_ne env _ 0 false s hne

/-- Every reachable state's raw cell content has a nonempty entry list. -/
theorem Reachable.entries_ne_nil {env : Env} {s : PState}
    (hr : Reachable env s) : s.nav.entries ≠ [] := by
  induction hr with
  | init entries currentIndex ctr hne => exact hne
  | navigateStep url options sk _ ih => exact navigate_ne env url options sk _ ih
  | backStep info sk _ ih => exact back_ne env info sk _ ih
  | forwardStep info sk _ ih => exact forward_ne env info sk _ ih
  | traverseToStep key info sk _ ih => exact traverseTo_ne env key info sk _ ih
  | reloadStep info sk _ ih => exact reload_ne env info sk _ ih
  | updateCurrentEntryStep st _ ih => exact updateCurrentEntry_ne env st _ ih

/- ### Concrete fixtures used by witnesses and counterexamples -/

def exUrl (p : String) : Url := ⟨"https://example.com", p, "", ""⟩

def exDest : Destination := ⟨10, 11, exUrl "/foo/1", .undef, true⟩

def exEnv : Env := ⟨50, "https://example.com", []⟩

def exInit : PState := ⟨⟨[exDest], 0, none⟩, 100, Trace.empty⟩

def exEvent : TransitionEvent := ⟨.push, exDest, 1, .dest exDest, none⟩

/- ### The claims -/

/-- C2: every state of the navigation cell reachable from any initial memory
configuration by any sequence of navigate, back, forward, traverseTo, reload,
and updateCurrentEntry satisfies `0 ≤ index < entries.length` and
`entries.length ≤ maxEntries`. -/
theorem C2_reachable_state_bounds (env : Env) (s : PState)
    (hr : Reachable env s) (hN : 1 ≤ env.maxEntries) :
    0 ≤ (cellGet env s).index ∧
    (cellGet env s).index < ((cellGet env s).entries.length : Int) ∧
    (cellGet env s).entries.length ≤ env.maxEntries :=
  clamp_bounds hN hr.entries_ne_nil

def exS1 : PState :=
  (navigate exEnv (exUrl "/foo/2") ⟨none, .undef, none⟩ false exInit).2

theorem C2_witness :
    0 ≤ (cellGet exEnv exS1).index ∧
    (cellGet exEnv exS1).index < ((cellGet exEnv exS1).entries.length : Int) ∧
    (cellGet exEnv exS1).entries.length ≤ exEnv.maxEntries :=
  C2_reachable_state_bounds exEnv exS1
    (Reachable.navigateStep (exUrl "/foo/2") ⟨none, .undef, none⟩ false
      (Reachable.init [exDest] (some 0) 100 (by decide)))
    (by decide)

/-- C8: for every NavigationState and every bound `N ≥ 1`, the clamping
transform is idempotent and leaves the `transition` field unchanged. -/
theorem C8_clamp_idempotent_preserves_transition (N : Nat) (s : NavigationState)
    (hN : 1 ≤ N) :
    clampNavigationState N (clampNavigationState N s) = clampNavigationState N s ∧
    (clampNavigationState N s).transition = s.transition :=
  ⟨clamp_idem N s, rfl⟩

theorem C8_witness :
    clampNavigationState 50 (clampNavigationState 50 ⟨[exDest], 3, none⟩) =
      clampNavigationState 50 ⟨[exDest], 3, none⟩ ∧
    (clampNavigationState 50 ⟨[exDest], 3, none⟩).transition =
      (⟨[exDest], 3, none⟩ : NavigationState).transition :=
  C8_clamp_idempotent_preserves_transition 50 ⟨[exDest], 3, none⟩ (by decide)

/-- C9 as stated is false on the code: `navigate` constructs its event with
`delta = type === 'replace' ? 0 : 1`, so a `push` event built by `navigate`
carries `delta = 1`, not `0`. Here a plain cross-path navigate produces a
`push` event whose `delta` is `1`. -/
theorem C9_counterexample :
    (makeNavigateEvent exEnv (exUrl "/bar/9") ⟨none, .undef, none⟩ exInit).1.type =
      .push ∧
    (makeNavigateEvent exEnv (exUrl "/bar/9") ⟨none, .undef, none⟩ exInit).1.delta = 1 := by
  decide

/-- C9 amended: `navigate` builds `delta = 0` for `replace` events and
`delta = 1` for `push` events; the events built by `reload`,
`updateCurrentEntry` and the redirect branch carry `delta = 0`; only
`traverse` events carry a non-zero signed delta. -/
theorem C9_amended_delta (env : Env) (url : Url) (options : NavigateOptions)
    (s : PState) (info : Option Nat) (stv : StateVal) (o : String) (p : Url)
    (f : Destination) (c : Nat) :
    (makeNavigateEvent env url options s).1.delta =
      (if (makeNavigateEvent env url options s).1.type = .replace then 0 else 1) ∧
    (reloadEvent env info s).delta = 0 ∧
    (updateCurrentEntryEvent env stv s).delta = 0 ∧
    ((makeRedirectEvent o p stv info f c).1).delta = 0 := by
  refine ⟨?_, rfl, rfl, rfl⟩
  simp [makeNavigateEvent]

/-- C3: during the Before phase every registered handler is polled in
insertion order unless some handler fails synchronously, in which case no
later handler is polled and no deferred effect runs; collected deferred
effects run in the order their handlers returned them, and a deferred
failure preempts the remaining deferred effects but not the polling of all
handlers. -/
theorem C3_before_handler_ordering
    (hs : List (TransitionEvent → HandlerOutcome)) (ev : TransitionEvent) :
    ((∀ o ∈ hs.map (fun h => h ev), o.isFail = false) →
       (runBeforeHandlers hs ev).polled = hs.map (fun h => h ev)) ∧
    ((∀ o ∈ hs.map (fun h => h ev), o.isFail = false) →
       (∀ d ∈ collectDefers (hs.map (fun h => h ev)), d.isFail = false) →
       (runBeforeHandlers hs ev).deferredRun = collectDefers (hs.map (fun h => h ev)) ∧
       (runBeforeHandlers hs ev).result = none) ∧
    (∀ pre e rest, hs.map (fun h => h ev) = pre ++ .fail e :: rest →
       (∀ o ∈ pre, o.isFail = false) →
       (runBeforeHandlers hs ev).polled = pre ++ [.fail e] ∧
       (runBeforeHandlers hs ev).result = some e ∧
       (runBeforeHandlers hs ev).deferredRun = []) ∧
    (∀ pre e rest, (∀ o ∈ hs.map (fun h => h ev), o.isFail = false) →
       collectDefers (hs.map (fun h => h ev)) = pre ++ .fail e :: rest →
       (∀ d ∈ pre, d.isFail = false) →
       (runBeforeHandlers hs ev).polled = hs.map (fun h => h ev) ∧
       (runBeforeHandlers hs ev).deferredRun = pre ++ [.fail e] ∧
       (runBeforeHandlers hs ev).result = some e) := by
  refine ⟨?_, ?_, ?_, ?_⟩
  · intro hnf
    simp [runBeforeHandlers, pollLoop_no_fail hnf]
  · intro hnf hnd
    simp [runBeforeHandlers, pollLoop_no_fail hnf, runDeferreds_no_fail hnd]
  · intro pre e rest heq hpre
    rw [runBeforeHandlers, heq, pollLoop_first_fail hpre]
    simp
  · intro pre e rest hnf heq hpre
    rw [runBeforeHandlers, pollLoop_no_fail hnf]
    simp only
    rw [heq, runDeferreds_first_fail hpre]
    simp

def exHandlers : List (TransitionEvent → HandlerOutcome) :=
  [fun _ => .defer .ok, fun _ => .defer (.fail .cancel), fun _ => .abstain]

theorem C3_witness :
    (runBeforeHandlers exHandlers exEvent).polled =
      exHandlers.map (fun h => h exEvent) ∧
    (runBeforeHandlers exHandlers exEvent).deferredRun = [.ok, .fail .cancel] ∧
    (runBeforeHandlers exHandlers exEvent).result = some .cancel :=
  (C3_before_handler_ordering exHandlers exEvent).2.2.2 [.ok] .cancel []
    (by decide) (by decide) (by decide)

/-- C7: with `history` absent or `'auto'`, non-patched caller state and a
fresh UUID supply, `navigate` resolves to a `replace` transition exactly when
the candidate destination's key equals the current entry's key, which holds
exactly when the target URL shares origin and pathname with the current
entry's URL (in that case only a fresh `id` is minted and the key is reused);
otherwise the transition is a `push` and both a fresh `id` and a fresh `key`
are minted. -/
theorem C7_auto_resolution (env : Env) (url : Url) (options : NavigateOptions)
    (s : PState)
    (hh : options.history.getD .auto = .auto)
    (hp : isPatchedState options.state = false)
    (hk : (getEntry (cellGet env s)).key < s.ctr) :
    ((makeNavigateEvent env url options s).1.type = .replace ↔
       (makeOrUpdateDestination (cellGet env s) url options.state env.origin s.ctr).1.key =
         (getEntry (cellGet env s)).key) ∧
    ((makeOrUpdateDestination (cellGet env s) url options.state env.origin s.ctr).1.key =
         (getEntry (cellGet env s)).key ↔
       (url.origin == (getEntry (cellGet env s)).url.origin &&
        url.pathname == (getEntry (cellGet env s)).url.pathname) = true) ∧
    ((url.origin == (getEntry (cellGet env s)).url.origin &&
      url.pathname == (getEntry (cellGet env s)).url.pathname) = true →
       (makeOrUpdateDestination (cellGet env s) url options.state env.origin s.ctr).1.id =
         s.ctr ∧
       (makeOrUpdateDestination (cellGet env s) url options.state env.origin s.ctr).1.key =
         (getEntry (cellGet env s)).key) ∧
    ((url.origin == (getEntry (cellGet env s)).url.origin &&
      url.pathname == (getEntry (cellGet env s)).url.pathname) = false →
       (makeNavigateEvent env url options s).1.type = .push ∧
       (makeOrUpdateDestination (cellGet env s) url options.state env.origin s.ctr).1.id =
         s.ctr ∧
       (makeOrUpdateDestination (cellGet env s) url options.state env.origin s.ctr).1.key =
         s.ctr + 1) := by
  by_cases hsame :
      (url.origin == (getEntry (cellGet env s)).url.origin &&
       url.pathname == (getEntry (cellGet env s)).url.pathname) = true
  · have hdest :
        makeOrUpdateDestination (cellGet env s) url options.state env.origin s.ctr =
          (⟨s.ctr, (getEntry (cellGet env s)).key, url, getOriginalState options.state,
             url.origin == env.origin⟩, s.ctr + 1) := by
      rw [makeOrUpdateDestination]
      simp [hsame, makeUuid]
    have htype : (makeNavigateEvent env url options s).1.type = .replace := by
      rw [makeNavigateEvent]
      simp [hh, hdest]
    refine ⟨?_, ?_, ?_, ?_⟩
    · simp [htype, hdest]
    · simp [hdest, hsame]
    · intro _
      simp [hdest]
    · intro hc
      rw [hsame] at hc
      exact absurd hc (by simp)
  · have hsame' :
        (url.origin == (getEntry (cellGet env s)).url.origin &&
         url.pathname == (getEntry (cellGet env s)).url.pathname) = false :=
      Bool.eq_false_iff.mpr hsame
    have hdest :
        makeOrUpdateDestination (cellGet env s) url options.state env.origin s.ctr =
          (⟨s.ctr, s.ctr + 1, url, options.state, url.origin == env.origin⟩, s.ctr + 2) := by
      rw [makeOrUpdateDestination]
      cases hst : options.state with
      | patched i k st => rw [hst] at hp; simp [isPatchedState] at hp
      | undef => simp [hsame', makeDestination, makeUuid]
      | raw n => simp [hsame', makeDestination, makeUuid]
    have hkey : ((getEntry (cellGet env s)).key == s.ctr + 1) = false := by
      have : (getEntry (cellGet env s)).key ≠ s.ctr + 1 := by omega
      simpa using this
    have htype : (makeNavigateEvent env url options s).1.type = .push := by
      rw [makeNavigateEvent]
      simp [hh, hdest, hkey]
    have hkval :
        (makeOrUpdateDestination (cellGet env s) url options.state env.origin s.ctr).1.key =
          s.ctr + 1 := by
      rw [hdest]
    have hid :
        (makeOrUpdateDestination (cellGet env s) url options.state env.origin s.ctr).1.id =
          s.ctr := by
      rw [hdest]
    have hne : s.ctr + 1 ≠ (getEntry (cellGet env s)).key := by omega
    refine ⟨?_, ?_, ?_, ?_⟩
    · rw [htype, hkval]
      simp [hne]
    · rw [hkval, hsame']
      simp [hne]
    · intro hc
      rw [hsame'] at hc
      exact absurd hc (by simp)
    · intro _
      exact ⟨htype, hid, hkval⟩

theorem C7_witness :
    ((makeNavigateEvent exEnv (exUrl "/foo/1") ⟨none, .raw 5, none⟩ exInit).1.type =
        .replace ↔
      (makeOrUpdateDestination (cellGet exEnv exInit) (exUrl "/foo/1") (.raw 5)
          exEnv.origin exInit.ctr).1.key = (getEntry (cellGet exEnv exInit)).key) ∧
    ((makeOrUpdateDestination (cellGet exEnv exInit) (exUrl "/foo/1") (.raw 5)
          exEnv.origin exInit.ctr).1.key = (getEntry (cellGet exEnv exInit)).key ↔
      ((exUrl "/foo/1").origin == (getEntry (cellGet exEnv exInit)).url.origin &&
       (exUrl "/foo/1").pathname == (getEntry (cellGet exEnv exInit)).url.pathname) = true) ∧
    (((exUrl "/foo/1").origin == (getEntry (cellGet exEnv exInit)).url.origin &&
      (exUrl "/foo/1").pathname == (getEntry (cellGet exEnv exInit)).url.pathname) = true →
      (makeOrUpdateDestination (cellGet exEnv exInit) (exUrl "/foo/1") (.raw 5)
          exEnv.origin exInit.ctr).1.id = exInit.ctr ∧
      (makeOrUpdateDestination (cellGet exEnv exInit) (exUrl "/foo/1") (.raw 5)
          exEnv.origin exInit.ctr).1.key = (getEntry (cellGet exEnv exInit)).key) ∧
    (((exUrl "/foo/1").origin == (getEntry (cellGet exEnv exInit)).url.origin &&
      (exUrl "/foo/1").pathname == (getEntry (cellGet exEnv exInit)).url.pathname) = false →
      (makeNavigateEvent exEnv (exUrl "/foo/1") ⟨none, .raw 5, none⟩ exInit).1.type = .push ∧
      (makeOrUpdateDestination (cellGet exEnv exInit) (exUrl "/foo/1") (.raw 5)
          exEnv.origin exInit.ctr).1.id = exInit.ctr ∧
      (makeOrUpdateDestination (cellGet exEnv exInit) (exUrl "/foo/1") (.raw 5)
          exEnv.origin exInit.ctr).1.key = exInit.ctr + 1) :=
  C7_auto_resolution exEnv (exUrl "/foo/1") ⟨none, .raw 5, none⟩ exInit
    rfl rfl (by decide)

/-- When the Before phase raises no error (or is skipped), the pipeline
returns the resolved destination and the final observed state is the clamp of
the Mutate table applied to the published in-flight state. -/
theorem runNav_no_error (env : Env) (ev : TransitionEvent) (depth : Nat)
    (sk : Bool) (s : PState)
    (hb : sk = true ∨ (runBeforeHandlers env.beforeHandlers ev).result = none) :
    (runNavigationEvent env ev depth sk s).1 = .ok (resolveTo ev.to' s.ctr).1 ∧
    cellGet env (runNavigationEvent env ev depth sk s).2 =
      clampNavigationState env.maxEntries
        (mutateTable
          (clampNavigationState env.maxEntries
            { cellGet env s with transition := some ev })
          ev (resolveTo ev.to' s.ctr).1) := by
  rcases hb with hsk | hnone
  · subst hsk
    rw [runNavigationEvent_skip, commitMutateAfter_spec]
    refine ⟨by rw [cellSet_ctr], ?_⟩
    simp only [cellSet_fst, cellSet_ctr]
    show clampNavigationState env.maxEntries _ = _
    rw [clamp_idem]
  · cases sk with
    | true =>
      rw [runNavigationEvent_skip, commitMutateAfter_spec]
      refine ⟨by rw [cellSet_ctr], ?_⟩
      simp only [cellSet_fst, cellSet_ctr]
      show clampNavigationState env.maxEntries _ = _
      rw [clamp_idem]
    | false =>
      rw [runNavigationEvent_ok env ev depth s hnone, commitMutateAfter_spec]
      refine ⟨by rw [recordBeforeRun_ctr, cellSet_ctr], ?_⟩
      simp only [cellSet_fst, recordBeforeRun_ctr, cellSet_ctr]
      show clampNavigationState env.maxEntries _ = _
      rw [clamp_idem]

/-- C1: for every committed transition the Mutate phase updates the state
cell per the event type: `push` discards the entries after the old index and
appends the target (`entries[0..index] ++ [to]`, index + 1, subject to
clamping); `replace` keeps the length and changes only `entries[index]`;
`reload` leaves entries and index unchanged; `traverse` leaves entries
unchanged and moves the index by `delta`. -/
theorem C1_mutate_phase (env : Env) (ev : TransitionEvent) (depth : Nat)
    (sk : Bool) (s : PState) (cur fin : NavigationState) (to' : Destination)
    (hb : sk = true ∨ (runBeforeHandlers env.beforeHandlers ev).result = none)
    (hN : 1 ≤ env.maxEntries) (hne : s.nav.entries ≠ [])
    (hcur : cur = clampNavigationState env.maxEntries
      { cellGet env s with transition := some ev })
    (hto : to' = (resolveTo ev.to' s.ctr).1)
    (hfin : fin = cellGet env (runNavigationEvent env ev depth sk s).2) :
    (runNavigationEvent env ev depth sk s).1 = .ok to' ∧
    (ev.type = .push →
      fin = clampNavigationState env.maxEntries
        ⟨cur.entries.take (cur.index + 1).toNat ++ [to'], cur.index + 1, none⟩) ∧
    (ev.type = .replace →
      fin.entries = cur.entries.set cur.index.toNat to' ∧
      fin.entries.length = cur.entries.length ∧
      fin.index = cur.index ∧ fin.transition = none) ∧
    (ev.type = .reload → fin = { cur with transition := none }) ∧
    (ev.type = .traverse →
      fin.entries = cur.entries ∧ fin.transition = none ∧
      (0 ≤ cur.index + ev.delta →
        cur.index + ev.delta < (cur.entries.length : Int) →
        fin.index = cur.index + ev.delta)) := by
  obtain ⟨hres, hnav⟩ := runNav_no_error env ev depth sk s hb
  have hgne : ({ cellGet env s with transition := some ev } : NavigationState).entries ≠ [] :=
    sliceLast_ne_nil hne _
  have hcb := clamp_bounds hN hgne
  rw [← hcur] at hcb hnav
  rw [← hto] at hnav
  obtain ⟨hc0, hc1, hc2⟩ := hcb
  refine ⟨by rw [hres, hto], ?_, ?_, ?_, ?_⟩
  · intro hty
    rw [hfin, hnav]
    congr 1
    unfold mutateTable
    rw [hty]
  · intro hty
    have htab : mutateTable cur ev to' =
        ⟨cur.entries.set cur.index.toNat to', cur.index, none⟩ := by
      unfold mutateTable
      rw [hty]
      have hlt : cur.index.toNat < cur.entries.length := by omega
      rw [List.set_eq_take_cons_drop to' hlt]
      simp
    have hself : clampNavigationState env.maxEntries
        (⟨cur.entries.set cur.index.toNat to', cur.index, none⟩ : NavigationState) =
        ⟨cur.entries.set cur.index.toNat to', cur.index, none⟩ := by
      apply clamp_eq_self <;> simp [List.length_set] <;> omega
    rw [hfin, hnav, htab, hself]
    refine ⟨rfl, by simp [List.length_set], rfl, rfl⟩
  · intro hty
    have htab : mutateTable cur ev to' = { cur with transition := none } := by
      unfold mutateTable
      rw [hty]
    have hself : clampNavigationState env.maxEntries
        ({ cur with transition := none } : NavigationState) =
        { cur with transition := none } := by
      apply clamp_eq_self <;> simp <;> omega
    rw [hfin, hnav, htab, hself]
  · intro hty
    have htab : mutateTable cur ev to' =
        { cur with index := cur.index + ev.delta, transition := none } := by
      unfold mutateTable
      rw [hty]
    rw [hfin, hnav, htab]
    refine ⟨?_, rfl, ?_⟩
    · rw [clamp_entries]
      exact sliceLast_eq_self hc2
    · intro hlo hhi
      show min (max 0 (cur.index + ev.delta))
        (((sliceLast env.maxEntries cur.entries).length : Int) - 1) = cur.index + ev.delta
      rw [sliceLast_eq_self hc2]
      omega

def exProposed : ProposedDestination := ⟨exUrl "/foo/2", .raw 7, true⟩

def c1ev : TransitionEvent := ⟨.push, exDest, 1, .proposed exProposed, none⟩

def c1cur : NavigationState :=
  clampNavigationState exEnv.maxEntries
    { cellGet exEnv exInit with transition := some c1ev }

def c1to : Destination := (resolveTo c1ev.to' exInit.ctr).1

def c1fin : NavigationState :=
  cellGet exEnv (runNavigationEvent exEnv c1ev 0 true exInit).2

theorem C1_witness :
    (runNavigationEvent exEnv c1ev 0 true exInit).1 = .ok c1to ∧
    (c1ev.type = .push →
      c1fin = clampNavigationState exEnv.maxEntries
        ⟨c1cur.entries.take (c1cur.index + 1).toNat ++ [c1to], c1cur.index + 1, none⟩) ∧
    (c1ev.type = .replace →
      c1fin.entries = c1cur.entries.set c1cur.index.toNat c1to ∧
      c1fin.entries.length = c1cur.entries.length ∧
      c1fin.index = c1cur.index ∧ c1fin.transition = none) ∧
    (c1ev.type = .reload → c1fin = { c1cur with transition := none }) ∧
    (c1ev.type = .traverse →
      c1fin.entries = c1cur.entries ∧ c1fin.transition = none ∧
      (0 ≤ c1cur.index + c1ev.delta →
        c1cur.index + c1ev.delta < (c1cur.entries.length : Int) →
        c1fin.index = c1cur.index + c1ev.delta)) :=
  C1_mutate_phase exEnv c1ev 0 true exInit c1cur c1fin c1to
    (Or.inl rfl) (by decide) (by decide) rfl rfl rfl

theorem clamp_cellGet (env : Env) (s : PState) :
    clampNavigationState env.maxEntries (cellGet env s) = cellGet env s :=
  clamp_idem _ _

theorem getEntry_withTransition (st : NavigationState) (t : Option TransitionEvent) :
    getEntry { st with transition := t } = getEntry st := rfl

/-- C10: an operation run with `skipCommit = true` polls no before-handler
(hence no redirect or cancel can arise) and performs no adapter commit, yet
still publishes the in-flight transition, applies the Mutate phase, and runs
the after-handlers. -/
theorem C10_skip_commit (env : Env) (ev : TransitionEvent) (depth : Nat)
    (s : PState) :
    (runNavigationEvent env ev depth true s).2.trace.beforeRuns = s.trace.beforeRuns ∧
    (runNavigationEvent env ev depth true s).2.trace.commits = s.trace.commits ∧
    (runNavigationEvent env ev depth true s).2.trace.afterRuns =
      s.trace.afterRuns ++ [⟨ev.type, (resolveTo ev.to' s.ctr).1, ev.info⟩] ∧
    (runNavigationEvent env ev depth true s).2.trace.sets =
      s.trace.sets ++
        [clampNavigationState env.maxEntries { cellGet env s with transition := some ev },
         clampNavigationState env.maxEntries
           (mutateTable
             (clampNavigationState env.maxEntries
               { cellGet env s with transition := some ev })
             ev (resolveTo ev.to' s.ctr).1)] ∧
    (clampNavigationState env.maxEntries
       { cellGet env s with transition := some ev }).transition = some ev ∧
    (runNavigationEvent env ev depth true s).1 = .ok (resolveTo ev.to' s.ctr).1 := by
  rw [runNavigationEvent_skip, commitMutateAfter_spec]
  simp [cellSet, clamp_transition]

/-- C4: when the Before phase fails with CancelNavigation, the engine clears
the in-flight transition, leaves entries and index exactly as before the
operation, and the operation completes successfully returning the current
entry. -/
theorem C4_cancel_clears (env : Env) (ev : TransitionEvent) (depth : Nat)
    (s : PState) (hd : depth < 25)
    (hc : (runBeforeHandlers env.beforeHandlers ev).result = some .cancel) :
    (runNavigationEvent env ev depth false s).1 = .ok (getEntry (cellGet env s)) ∧
    cellGet env (runNavigationEvent env ev depth false s).2 =
      { cellGet env s with transition := none } := by
  rw [runNavigationEvent_err env ev depth s _ hc]
  have hget1 : cellGet env
      (recordBeforeRun ev (cellSet env { cellGet env s with transition := some ev } s).2) =
      { cellGet env s with transition := some ev } := by
    rw [cellGet_recordBeforeRun, cellGet_cellSet, clamp_withTransition, clamp_cellGet]
  rw [handleError_cancel env depth _ hd]
  constructor
  · rw [hget1, getEntry_withTransition]
  · rw [cellGet_cellSet, hget1]
    show clampNavigationState env.maxEntries
      { cellGet env s with transition := none } = _
    rw [clamp_withTransition, clamp_cellGet]

def envCancel : Env := ⟨50, "https://example.com", [fun _ => .fail .cancel]⟩

theorem C4_witness :
    (runNavigationEvent envCancel exEvent 0 false exInit).1 =
      .ok (getEntry (cellGet envCancel exInit)) ∧
    cellGet envCancel (runNavigationEvent envCancel exEvent 0 false exInit).2 =
      { cellGet envCancel exInit with transition := none } :=
  C4_cancel_clears envCancel exEvent 0 exInit (by decide) (by decide)

/-- C5: when the Before phase fails with Redirect(path, options), the engine
builds a new `replace` event whose `from` is the current entry and whose `to`
is `makeDestination(path, options.state, origin)`, and re-enters the Before
phase with it; the before-handlers run again for the redirect event, and the
after-handlers run exactly once, with the final committed destination. -/
theorem C5_redirect_reenter (env : Env) (ev rev : TransitionEvent) (s : PState)
    (p : Url) (stv : StateVal) (inf : Option Nat)
    (h1 : (runBeforeHandlers env.beforeHandlers ev).result = some (.redirect p stv inf))
    (hrev : rev =
      (makeRedirectEvent env.origin p stv inf (getEntry (cellGet env s)) s.ctr).1)
    (h2 : (runBeforeHandlers env.beforeHandlers rev).result = none) :
    rev.type = .replace ∧
    rev.from' = getEntry (cellGet env s) ∧
    rev.to' = .dest (makeDestination p stv env.origin s.ctr).1 ∧
    rev.info = inf ∧
    (runNavigationEvent env ev 0 false s).2.trace.beforeRuns =
      s.trace.beforeRuns ++ [ev, rev] ∧
    (runNavigationEvent env ev 0 false s).2.trace.afterRuns =
      s.trace.afterRuns ++
        [⟨.replace, (makeDestination p stv env.origin s.ctr).1, inf⟩] ∧
    (runNavigationEvent env ev 0 false s).1 =
      .ok (makeDestination p stv env.origin s.ctr).1 := by
  have hget1 : cellGet env
      (recordBeforeRun ev (cellSet env { cellGet env s with transition := some ev } s).2) =
      { cellGet env s with transition := some ev } := by
    rw [cellGet_recordBeforeRun, cellGet_cellSet, clamp_withTransition, clamp_cellGet]
  refine ⟨by rw [hrev]; rfl, by rw [hrev]; rfl, by rw [hrev]; rfl,
    by rw [hrev]; rfl, ?_⟩
  rw [runNavigationEvent_err env ev 0 s _ h1]
  rw [handleError_redirect env p stv inf 0 _ (by omega)]
  rw [hget1, getEntry_withTransition]
  simp only [recordBeforeRun_ctr, cellSet_ctr]
  rw [← hrev]
  rw [runNavigationEvent_ok env rev 1 _ h2, commitMutateAfter_spec]
  subst hrev
  simp [recordBeforeRun, cellSet, resolveTo, makeRedirectEvent]

def envRedirect : Env :=
  ⟨50, "https://example.com",
   [fun ev =>
      match ev.to' with
      | .dest d =>
        if d.url.pathname == "/foo/2" then
          .fail (.redirect (exUrl "/bar/42") .undef none)
        else .abstain
      | .proposed _ => .abstain]⟩

def c5ev : TransitionEvent :=
  ⟨.push, exDest, 1, .dest ⟨20, 21, exUrl "/foo/2", .undef, true⟩, none⟩

theorem C5_witness :
    (makeRedirectEvent envRedirect.origin (exUrl "/bar/42") .undef none
        (getEntry (cellGet envRedirect exInit)) exInit.ctr).1.type = .replace ∧
    (makeRedirectEvent envRedirect.origin (exUrl "/bar/42") .undef none
        (getEntry (cellGet envRedirect exInit)) exInit.ctr).1.from' =
      getEntry (cellGet envRedirect exInit) ∧
    (makeRedirectEvent envRedirect.origin (exUrl "/bar/42") .undef none
        (getEntry (cellGet envRedirect exInit)) exInit.ctr).1.to' =
      .dest (makeDestination (exUrl "/bar/42") .undef envRedirect.origin exInit.ctr).1 ∧
    (makeRedirectEvent envRedirect.origin (exUrl "/bar/42") .undef none
        (getEntry (cellGet envRedirect exInit)) exInit.ctr).1.info = none ∧
    (runNavigationEvent envRedirect c5ev 0 false exInit).2.trace.beforeRuns =
      exInit.trace.beforeRuns ++
        [c5ev,
         (makeRedirectEvent envRedirect.origin (exUrl "/bar/42") .undef none
           (getEntry (cellGet envRedirect exInit)) exInit.ctr).1] ∧
    (runNavigationEvent envRedirect c5ev 0 false exInit).2.trace.afterRuns =
      exInit.trace.afterRuns ++
        [⟨.replace,
          (makeDestination (exUrl "/bar/42") .undef envRedirect.origin exInit.ctr).1,
          none⟩] ∧
    (runNavigationEvent envRedirect c5ev 0 false exInit).1 =
      .ok (makeDestination (exUrl "/bar/42") .undef envRedirect.origin exInit.ctr).1 :=
  C5_redirect_reenter envRedirect c5ev _ exInit (exUrl "/bar/42") .undef none
    (by decide) rfl (by decide)

/-- Auxiliary family for C6: an environment with a single before-handler that
counts down through the event's `info`, redirecting while it is positive. A
chain started with `info = some n` performs exactly `n` redirects. -/
def chainHandler : TransitionEvent → HandlerOutcome := fun ev =>
  match ev.info with
  | some (n + 1) => .fail (.redirect ⟨"https://example.com", "/loop", "", ""⟩ .undef (some n))
  | _ => .abstain

def chainEnv (maxE : Nat) (origin : String) : Env := ⟨maxE, origin, [chainHandler]⟩

theorem chain_completes :
    ∀ n depth (ev : TransitionEvent) (s : PState) (maxE : Nat) (origin : String),
      ev.info = some n → depth + n ≤ 25 →
      ((runNavigationEvent (chainEnv maxE origin) ev depth false s).1).isOk = true := by
  intro n
  induction n with
  | zero =>
    intro depth ev s maxE origin hinfo hdn
    have hres : (runBeforeHandlers (chainEnv maxE origin).beforeHandlers ev).result = none := by
      simp [chainEnv, runBeforeHandlers, pollLoop, chainHandler, hinfo, runDeferreds]
    rw [runNavigationEvent_ok _ _ _ _ hres, commitMutateAfter_spec]
    rfl
  | succ n ih =>
    intro depth ev s maxE origin hinfo hdn
    have hres : (runBeforeHandlers (chainEnv maxE origin).beforeHandlers ev).result =
        some (.redirect ⟨"https://example.com", "/loop", "", ""⟩ .undef (some n)) := by
      simp [chainEnv, runBeforeHandlers, pollLoop, chainHandler, hinfo]
    rw [runNavigationEvent_err _ _ _ _ _ hres]
    rw [handleError_redirect _ _ _ _ _ _ (by omega)]
    exact ih (depth + 1) _ _ maxE origin rfl (by omega)

/-- C6: the redirect recursion terminates for every operation: each redirect
re-enters the pipeline at depth + 1, `handleError` at depth ≥ 25 aborts
fatally (a defect) with the message "Redirect loop detected.", and a redirect
chain that stays below the bound completes normally. -/
theorem C6_redirect_loop_guard :
    (∀ (env : Env) (e : NavErr) (depth : Nat) (s : PState), 25 ≤ depth →
       handleError env e depth s = (.fatal "Redirect loop detected.", s)) ∧
    (∀ (env : Env) (p : Url) (stv : StateVal) (inf : Option Nat) (depth : Nat)
       (s : PState), depth < 25 →
       handleError env (.redirect p stv inf) depth s =
         runNavigationEvent env
           (makeRedirectEvent env.origin p stv inf (getEntry (cellGet env s)) s.ctr).1
           (depth + 1) false
           { s with ctr := (makeRedirectEvent env.origin p stv inf
                             (getEntry (cellGet env s)) s.ctr).2 }) ∧
    (∀ (maxE : Nat) (origin : String) (n depth : Nat) (ev : TransitionEvent)
       (s : PState), ev.info = some n → depth + n ≤ 25 →
       ((runNavigationEvent (chainEnv maxE origin) ev depth false s).1).isOk = true) :=
  ⟨fun env e depth s h => handleError_depth env e depth s h,
   fun env p stv inf depth s h => handleError_redirect env p stv inf depth s h,
   fun maxE origin n depth ev s h1 h2 => chain_completes n depth ev s maxE origin h1 h2⟩

theorem C6_witness :
    handleError exEnv .cancel 25 exInit = (.fatal "Redirect loop detected.", exInit) ∧
    ((runNavigationEvent (chainEnv 50 "https://example.com")
        ⟨.push, exDest, 1, .dest exDest, some 3⟩ 0 false exInit).1).isOk = true :=
  ⟨C6_redirect_loop_guard.1 exEnv .cancel 25 exInit (by decide),
   C6_redirect_loop_guard.2.2 50 "https://example.com" 3 0
     ⟨.push, exDest, 1, .dest exDest, some 3⟩ exInit rfl (by decide)⟩

end TypedNavigation
